import Mathlib

/-!
# tuningfork::UploadThread

A shallow embedding of `src/tuningfork/uploadthread.cpp`: the single-slot
submission protocol (`Submit`), the drain cycle (`ProcessHistogramCache`),
the worker loop (`Run`) as a step function on a program counter, and the
`Start`/`Stop` lifecycle.  Pointers are addresses (`Option Nat`, `none` is
`nullptr`), and every externally visible action (a `Backend::Process` call,
a thread spawn, a join, a wake-up, a log line) is appended to a trace.
-/

namespace tuningfork

/-- The bytes of a serialized protobuf (`std::vector<uint8_t>`). -/
abbrev ProtobufSerialization := List Nat

/-- The decoded `FidelityParams` message; its content is not inspected here. -/
abbrev FidelityParams := List Nat

/-- One histogram of a `TuningForkLogEvent`; its content is not inspected here. -/
abbrev Histogram := List Nat

/-- The message `TuningForkLogEvent` as far as the drain cycle touches it. -/
structure TuningForkLogEvent where
  fidelityparams : FidelityParams
  histograms : List Histogram
deriving DecidableEq, Repr

/-- A default-constructed `TuningForkLogEvent evt;`. -/
def TuningForkLogEvent.empty : TuningForkLogEvent :=
  { fidelityparams := [], histograms := [] }

/-- The collaborators `uploadthread.cpp` calls but does not define. -/
structure Env where
  /-- The message that `SerializationToProtobuf(ser, pb)` parses out of `ser`. -/
  SerializationToProtobuf : ProtobufSerialization → FidelityParams
  /-- The method `ProngCache::FillHistograms(evt)` of the cache at the given address. -/
  FillHistograms : Nat → TuningForkLogEvent → TuningForkLogEvent
  /-- The bytes that `ProtobufToSerialization(evt, ser)` writes to `ser`. -/
  ProtobufToSerialization : TuningForkLogEvent → ProtobufSerialization
  /-- The method `Backend::Process` of the backend at the given address. -/
  Process : Nat → ProtobufSerialization → Bool
  /-- The address `s_debug_backend.get()`. -/
  s_debug_backend : Nat

/-- Where the thread executing `Run` stands. -/
inductive WorkerPc where
  /-- At the loop test `while (!do_quit_)`. -/
  | loopTest
  /-- Inside the loop body, holding `mutex_`, before `if (ready_)`. -/
  | locked
  /-- Inside `cv_.wait_for`, `mutex_` released. -/
  | waiting
  /-- The call of `Run` has returned. -/
  | exited
deriving DecidableEq, Repr

/-- The `std::thread` object owned by `thread_`, with the thread it started. -/
structure Thread where
  pc : WorkerPc
  joinable : Bool
deriving DecidableEq, Repr

/-- The data members of `UploadThread`. -/
structure UploadThread where
  thread_ : Option Thread
  do_quit_ : Bool
  ready_ : Option Nat
  backend_ : Nat
  current_fidelity_params_ : ProtobufSerialization
deriving DecidableEq, Repr

/-- What the code does that is visible outside the object. -/
inductive Effect where
  /-- A `__android_log_print(ANDROID_LOG_WARN, ...)` line. -/
  | warn (msg : String)
  /-- A `std::thread` was created running `Run`. -/
  | spawn
  /-- A `thread_->join()` completed. -/
  | join
  /-- A `cv_.notify_one()`. -/
  | notify
  /-- A `backend->Process(bytes)` call and the value it returned. -/
  | process (backend : Nat) (bytes : ProtobufSerialization) (result : Bool)
deriving DecidableEq, Repr

/-- The object together with the trace of effects so far. -/
structure Sys where
  self : UploadThread
  trace : List Effect
deriving DecidableEq, Repr

/-- Append one effect to the trace. -/
def Sys.emit (s : Sys) (e : Effect) : Sys :=
  { s with trace := s.trace ++ [e] }

/-- The `Process` calls recorded in a trace, oldest first. -/
def processCalls : List Effect → List (Nat × ProtobufSerialization)
  | [] => []
  | Effect.process b bytes _ :: rest => (b, bytes) :: processCalls rest
  | _ :: rest => processCalls rest

/-- The method `UploadThread::Start`. -/
def Start (s : Sys) : Sys :=
  match s.self.thread_ with
  | some _ => s.emit (Effect.warn "Can't start an already running thread")
  | none =>
    { self := { s.self with
                do_quit_ := false
                ready_ := none
                thread_ := some { pc := WorkerPc.loopTest, joinable := true } }
      trace := s.trace ++ [Effect.spawn] }

/-- The method `UploadThread::ProcessHistogramCache`; `none` when `ready_` is null
(the dereference `ready_->FillHistograms` is undefined). -/
def ProcessHistogramCache (env : Env) (s : Sys) : Option Sys :=
  match s.self.ready_ with
  | none => none
  | some p =>
    let evt : TuningForkLogEvent :=
      { TuningForkLogEvent.empty with
        fidelityparams := env.SerializationToProtobuf s.self.current_fidelity_params_ }
    let evt := env.FillHistograms p evt
    let evt_ser := env.ProtobufToSerialization evt
    let r := env.Process s.self.backend_ evt_ser
    some { self := { s.self with ready_ := none }
           trace := s.trace ++ [Effect.process s.self.backend_ evt_ser r] }

/-- Set the program counter of the worker thread. -/
def Sys.setPc (s : Sys) (pc : WorkerPc) : Sys :=
  match s.self.thread_ with
  | none => s
  | some t => { s with self := { s.self with thread_ := some { t with pc := pc } } }

/-- One step of the thread executing `UploadThread::Run`. -/
def RunStep (env : Env) (s : Sys) : Sys :=
  match s.self.thread_ with
  | none => s
  | some t =>
    match t.pc with
    | WorkerPc.loopTest =>
      if s.self.do_quit_ then s.setPc WorkerPc.exited else s.setPc WorkerPc.locked
    | WorkerPc.locked =>
      if s.self.ready_.isSome then
        match ProcessHistogramCache env s with
        | some s' => s'.setPc WorkerPc.waiting
        | none => s.setPc WorkerPc.waiting
      else s.setPc WorkerPc.waiting
    | WorkerPc.waiting => s.setPc WorkerPc.loopTest
    | WorkerPc.exited => s

/-- The worker thread takes `n` steps. -/
def RunSteps (env : Env) : Nat → Sys → Sys
  | 0, s => s
  | n + 1, s => RunSteps env n (RunStep env s)

/-- The method `UploadThread::Stop`; `none` when `thread_` is null (the call
`thread_->joinable()` is undefined) or the worker has not left `Run` within
the steps an iteration takes. -/
def Stop (env : Env) (s : Sys) : Option Sys :=
  match s.self.thread_ with
  | none => none
  | some t =>
    if !t.joinable then
      some (s.emit (Effect.warn "Can't stop a thread that's not started"))
    else
      let s1 : Sys := { self := { s.self with do_quit_ := true }
                        trace := s.trace ++ [Effect.notify] }
      let s2 := RunSteps env 3 s1
      match s2.self.thread_ with
      | some t2 =>
        if t2.pc = WorkerPc.exited then
          some { self := { s2.self with thread_ := some { t2 with joinable := false } }
                 trace := s2.trace ++ [Effect.join] }
        else none
      | none => none

/-- The method `UploadThread::Submit`, run without another thread in between. -/
def Submit (prongs : Option Nat) (s : Sys) : Bool × Sys :=
  if s.self.ready_ = none then
    (true, { self := { s.self with ready_ := prongs }
             trace := s.trace ++ [Effect.notify] })
  else
    (false, s)

/-- The constructor `UploadThread::UploadThread(Backend *backend)`.  Its
initializer list sets `backend_` and `current_fidelity_params_` only; what
`do_quit_` and `ready_` hold before `Start` runs is an argument here. -/
def UploadThread.UploadThread (env : Env) (backend : Option Nat)
    (do_quit0 : Bool) (ready0 : Option Nat) : Sys :=
  let backend_ := match backend with
    | none => env.s_debug_backend
    | some b => b
  Start { self := { thread_ := none
                    do_quit_ := do_quit0
                    ready_ := ready0
                    backend_ := backend_
                    current_fidelity_params_ := [] }
          trace := [] }

/-- Modelled from the spec: the configuration-update path that assigns
`current_fidelity_params_`; it is declared in `uploadthread.h`, which is not
among the sources. -/
def SetCurrentFidelityParams (fp : ProtobufSerialization) (s : Sys) : Sys :=
  { s with self := { s.self with current_fidelity_params_ := fp } }

/-- The worker exists and has not been joined. -/
def Running (s : Sys) : Bool :=
  match s.self.thread_ with
  | some t => t.joinable
  | none => false

/-- A worker was created and has been joined. -/
def Stopped (s : Sys) : Bool :=
  match s.self.thread_ with
  | some t => !t.joinable
  | none => false

/-- The bytes a drain cycle hands to the backend for configuration `c` and the
cache at address `p`. -/
def drainBytes (env : Env) (c : ProtobufSerialization) (p : Nat) : ProtobufSerialization :=
  env.ProtobufToSerialization
    (env.FillHistograms p
      { fidelityparams := env.SerializationToProtobuf c, histograms := [] })

/-- The worker thread has returned from `Run`. -/
def workerExited (s : Sys) : Bool :=
  match s.self.thread_ with
  | some t => decide (t.pc = WorkerPc.exited)
  | none => false

/-- Where a thread executing `Submit` stands. -/
inductive SubmitPc where
  /-- Before the test `ready_ == nullptr`. -/
  | test
  /-- The test succeeded; before the guarded assignment `ready_ = prongs`. -/
  | store
  /-- The lock is released; before `cv_.notify_one()`. -/
  | wake
  /-- The call has returned the given value. -/
  | returned (result : Bool)
deriving DecidableEq, Repr

/-- A producer thread inside a call `Submit(prongs)`. -/
structure Caller where
  prongs : Option Nat
  pc : SubmitPc
deriving DecidableEq, Repr

/-- The worker thread holds `mutex_`. -/
def mutexHeldByWorker (s : Sys) : Bool :=
  match s.self.thread_ with
  | some t => decide (t.pc = WorkerPc.locked)
  | none => false

/-- One step of a thread executing `UploadThread::Submit`: the test, the
assignment under `std::lock_guard` (taken only when the mutex is free), the
wake-up. -/
def SubmitStep (c : Caller) (s : Sys) : Caller × Sys :=
  match c.pc with
  | SubmitPc.test =>
    if s.self.ready_ = none then ({ c with pc := SubmitPc.store }, s)
    else ({ c with pc := SubmitPc.returned false }, s)
  | SubmitPc.store =>
    if mutexHeldByWorker s then (c, s)
    else ({ c with pc := SubmitPc.wake },
          { s with self := { s.self with ready_ := c.prongs } })
  | SubmitPc.wake =>
    ({ c with pc := SubmitPc.returned true }, s.emit Effect.notify)
  | SubmitPc.returned _ => (c, s)

/-- The object, its trace, and the producer threads inside `Submit`. -/
structure Conc where
  sys : Sys
  callers : List Caller
deriving DecidableEq, Repr

/-- The thread chosen by the scheduler takes one step: `none` is the worker,
`some i` the producer at index `i`. -/
def Conc.step (env : Env) (c : Conc) : Option Nat → Conc
  | none => { c with sys := RunStep env c.sys }
  | some i =>
    match c.callers.get? i with
    | none => c
    | some k =>
      let r := SubmitStep k c.sys
      { sys := r.2, callers := c.callers.set i r.1 }

/-- Run a schedule, a list of thread choices, from a configuration. -/
def Conc.run (env : Env) : List (Option Nat) → Conc → Conc
  | [], c => c
  | t :: rest, c => Conc.run env rest (Conc.step env c t)

/-- A call a thread can make on the object, or a step of the worker. -/
inductive Action where
  | start
  | stop
  | submit (prongs : Option Nat)
  | setParams (fp : ProtobufSerialization)
  | workerStep
deriving DecidableEq, Repr

/-- Perform one action; `none` when it is undefined. -/
def Action.perform (env : Env) (s : Sys) : Action → Option Sys
  | Action.start => some (Start s)
  | Action.stop => Stop env s
  | Action.submit p => some (Submit p s).2
  | Action.setParams fp => some (SetCurrentFidelityParams fp s)
  | Action.workerStep => some (RunStep env s)

/-- Perform a list of actions in order. -/
def performAll (env : Env) : List Action → Sys → Option Sys
  | [], s => some s
  | a :: rest, s =>
    match a.perform env s with
    | none => none
    | some s' => performAll env rest s'

/-- A concrete set of collaborators for evaluating the definitions: the
configuration decodes to itself, the cache at address `p` appends the
histogram `[p]`, an event serializes to its fields laid end to end, and the
backend at an even address reports success. -/
def sampleEnv : Env :=
  { SerializationToProtobuf := fun ser => ser
    FillHistograms := fun p evt => { evt with histograms := evt.histograms ++ [[p]] }
    ProtobufToSerialization := fun evt => evt.fidelityparams ++ evt.histograms.flatten
    Process := fun b _ => decide (b % 2 = 0)
    s_debug_backend := 0 }

/-- An object with a worker waiting in `cv_.wait_for` and the given slot. -/
def sampleSys (ready : Option Nat) : Sys :=
  { self := { thread_ := some { pc := WorkerPc.waiting, joinable := true }
              do_quit_ := false
              ready_ := ready
              backend_ := 4
              current_fidelity_params_ := [7] }
    trace := [] }

/-- The state the constructor without a backend argument, followed by one
`Stop`, leads to. -/
def stoppedSys : Sys :=
  { self := { thread_ := some { pc := WorkerPc.exited, joinable := false }
              do_quit_ := true
              ready_ := none
              backend_ := 0
              current_fidelity_params_ := [] }
    trace := [Effect.spawn, Effect.notify, Effect.join] }

/-- A running scheduler whose worker stands at its loop test with the shutdown
flag set and the cache at address 3 pending. -/
def quittingSys : Sys :=
  { self := { thread_ := some { pc := WorkerPc.loopTest, joinable := true }
              do_quit_ := true
              ready_ := some 3
              backend_ := 4
              current_fidelity_params_ := [7] }
    trace := [] }

/-- Calls and worker steps made after the worker of `quittingSys` has left. -/
def quitActions : List Action :=
  [Action.start, Action.submit (some 5), Action.workerStep, Action.stop, Action.workerStep]

/-- The state `quitActions` lead to from `quittingSys` once its worker has left. -/
def afterQuitSys : Sys :=
  { self := { thread_ := some { pc := WorkerPc.exited, joinable := false }
              do_quit_ := true
              ready_ := some 3
              backend_ := 4
              current_fidelity_params_ := [7] }
    trace := [Effect.warn "Can't start an already running thread", Effect.notify,
      Effect.join] }

/-- The first configuration of the race: an empty slot and two producers about
to call `Submit`, one with the cache at address 1, one with the cache at 2. -/
def raceStart : Conc :=
  { sys := sampleSys none
    callers := [{ prongs := some 1, pc := SubmitPc.test },
                { prongs := some 2, pc := SubmitPc.test }] }

/-! ## Traces -/

theorem processCalls_append (l₁ l₂ : List Effect) :
    processCalls (l₁ ++ l₂) = processCalls l₁ ++ processCalls l₂ := by
  induction l₁ with
  | nil => rfl
  | cons e rest ih => cases e <;> simp [processCalls, ih]

/-! ## Submit -/

/-- C1: `Submit(p)` returns false exactly when the slot is occupied at call
time, and when it returns true for a non-null `p` the slot afterwards is
occupied and holds exactly `p`. -/
theorem Submit_false_iff_occupied (s : Sys) (p : Option Nat) :
    ((Submit p s).1 = false ↔ s.self.ready_ ≠ none) ∧
    ((Submit p s).1 = true → p ≠ none →
      (Submit p s).2.self.ready_ ≠ none ∧ (Submit p s).2.self.ready_ = p) := by
  unfold Submit
  by_cases h : s.self.ready_ = none
  · simp [h]
  · simp [h]

/-- C1 at a concrete state: an empty slot accepts the cache at address 5 and
holds it afterwards. -/
theorem Submit_false_iff_occupied_witness :
    (Submit (some 5) (sampleSys none)).1 = true ∧
    (Submit (some 5) (sampleSys none)).2.self.ready_ = some 5 ∧
    (Submit (some 5) (sampleSys (some 3))).1 = false :=
  ⟨by decide,
   ((Submit_false_iff_occupied (sampleSys none) (some 5)).2 (by decide) (by decide)).2,
   (Submit_false_iff_occupied (sampleSys (some 3)) (some 5)).1.2 (by decide)⟩

/-- C2: with the slot occupied, `Submit(p)` returns false and the object and
its trace are what they were: the slot still holds the pending reference, and
the shutdown flag, configuration, backend and worker handle are unchanged. -/
theorem Submit_occupied_no_change (s : Sys) (p : Option Nat) (q : Nat)
    (h : s.self.ready_ = some q) :
    Submit p s = (false, s) ∧
    (Submit p s).2.self.ready_ = some q ∧
    (Submit p s).2.self.do_quit_ = s.self.do_quit_ ∧
    (Submit p s).2.self.current_fidelity_params_ = s.self.current_fidelity_params_ ∧
    (Submit p s).2.self.backend_ = s.self.backend_ ∧
    (Submit p s).2.self.thread_ = s.self.thread_ ∧
    (Submit p s).2.trace = s.trace := by
  have hs : Submit p s = (false, s) := by
    unfold Submit
    simp [h]
  rw [hs]
  exact ⟨rfl, h, rfl, rfl, rfl, rfl, rfl⟩

/-- C2 at a concrete state: the slot holds address 3 and a submission of
address 5 is rejected without a trace. -/
theorem Submit_occupied_no_change_witness :
    Submit (some 5) (sampleSys (some 3)) = (false, sampleSys (some 3)) :=
  (Submit_occupied_no_change (sampleSys (some 3)) (some 5) 3 rfl).1

/-! ## The drain cycle -/

/-- What a drain cycle does to a state whose slot holds `p`. -/
theorem ProcessHistogramCache_occupied (env : Env) (s : Sys) (p : Nat)
    (h : s.self.ready_ = some p) :
    ProcessHistogramCache env s =
      some { self := { s.self with ready_ := none }
             trace := s.trace ++
               [Effect.process s.self.backend_
                 (drainBytes env s.self.current_fidelity_params_ p)
                 (env.Process s.self.backend_
                   (drainBytes env s.self.current_fidelity_params_ p))] } := by
  unfold ProcessHistogramCache
  simp [h, drainBytes, TuningForkLogEvent.empty]

/-- C3: with the slot occupied, a drain cycle against a backend whose
`Process` returns `r` ends with the slot empty and every other member as it
was, for `r` true and for `r` false alike (the result shows in the trace
only); of two submissions of non-null references that follow, the first is
accepted and the second refused. -/
theorem drain_empties_slot_for_either_result (env : Env) (s : Sys) (p : Nat) (r : Bool)
    (h : s.self.ready_ = some p) :
    ∃ s', ProcessHistogramCache { env with Process := fun _ _ => r } s = some s' ∧
      s'.self = { s.self with ready_ := none } ∧
      (∃ bytes, s'.trace = s.trace ++ [Effect.process s.self.backend_ bytes r]) ∧
      ∀ a b : Nat,
        (Submit (some a) s').1 = true ∧
        (Submit (some b) (Submit (some a) s').2).1 = false ∧
        (Submit (some b) (Submit (some a) s').2).2.self.ready_ = some a := by
  refine ⟨_, ProcessHistogramCache_occupied _ s p h, rfl, ⟨_, rfl⟩, ?_⟩
  intro a b
  simp [Submit]

/-- C3 at a concrete state: the slot holds address 3 and the backend fails. -/
theorem drain_empties_slot_for_either_result_witness :
    ∃ s', ProcessHistogramCache { sampleEnv with Process := fun _ _ => false }
        (sampleSys (some 3)) = some s' ∧
      s'.self = { (sampleSys (some 3)).self with ready_ := none } ∧
      (∃ bytes, s'.trace = (sampleSys (some 3)).trace ++
        [Effect.process (sampleSys (some 3)).self.backend_ bytes false]) ∧
      ∀ a b : Nat,
        (Submit (some a) s').1 = true ∧
        (Submit (some b) (Submit (some a) s').2).1 = false ∧
        (Submit (some b) (Submit (some a) s').2).2.self.ready_ = some a :=
  drain_empties_slot_for_either_result sampleEnv (sampleSys (some 3)) 3 false rfl

/-- C4: with the slot holding the cache at `p` and the configuration `c` at
the time of the drain, a drain cycle makes exactly one `Process` call, on the
serialization of the event whose fidelity parameters are decoded from `c` and
whose histograms are those `FillHistograms` writes; and when `p` was submitted
under another configuration, replaced by `c` before the drain, the bytes are
the same. -/
theorem drain_delivers_current_configuration (env : Env) (s : Sys) (p : Nat)
    (c : ProtobufSerialization)
    (h : s.self.ready_ = some p) (hc : s.self.current_fidelity_params_ = c) :
    (∃ s', ProcessHistogramCache env s = some s' ∧
      ∃ r, s'.trace = s.trace ++
        [Effect.process s.self.backend_
          (env.ProtobufToSerialization
            (env.FillHistograms p
              { fidelityparams := env.SerializationToProtobuf c, histograms := [] })) r] ∧
      processCalls s'.trace = processCalls s.trace ++ [(s.self.backend_, drainBytes env c p)]) ∧
    ∀ s0 : Sys, s0.self.ready_ = none →
      ∃ s', ProcessHistogramCache env
          (SetCurrentFidelityParams c (Submit (some p) s0).2) = some s' ∧
        processCalls s'.trace =
          processCalls s0.trace ++ [(s0.self.backend_, drainBytes env c p)] := by
  subst hc
  refine ⟨⟨_, ProcessHistogramCache_occupied env s p h, _, rfl, ?_⟩, ?_⟩
  · simp [processCalls_append, processCalls]
  · intro s0 h0
    refine ⟨_, ProcessHistogramCache_occupied env _ p ?_, ?_⟩
    · simp [SetCurrentFidelityParams, Submit, h0]
    · simp [SetCurrentFidelityParams, Submit, h0, processCalls_append, processCalls]

/-- C4 at a concrete state: the slot holds address 3 under configuration
`[9]`; the backend at address 4 receives the bytes `[9, 3]`. -/
theorem drain_delivers_current_configuration_witness :
    ∃ s', ProcessHistogramCache sampleEnv
        (SetCurrentFidelityParams [9] (Submit (some 3) (sampleSys none)).2) = some s' ∧
      processCalls s'.trace = [(4, [9, 3])] :=
  (drain_delivers_current_configuration sampleEnv
    (SetCurrentFidelityParams [9] (Submit (some 3) (sampleSys none)).2) 3 [9]
    rfl rfl).2 (sampleSys none) rfl

/-! ## The worker loop -/

theorem RunStep_exited (env : Env) (s : Sys) (t : Thread)
    (ht : s.self.thread_ = some t) (hpc : t.pc = WorkerPc.exited) :
    RunStep env s = s := by
  unfold RunStep
  simp [ht, hpc]

theorem RunSteps_exited (env : Env) (n : Nat) (s : Sys) (t : Thread)
    (ht : s.self.thread_ = some t) (hpc : t.pc = WorkerPc.exited) :
    RunSteps env n s = s := by
  induction n with
  | zero => rfl
  | succ k ih => simp [RunSteps, RunStep_exited env s t ht hpc, ih]

theorem RunStep_empty_slot (env : Env) (s : Sys) (h : s.self.ready_ = none) :
    (RunStep env s).trace = s.trace ∧ (RunStep env s).self.ready_ = none := by
  unfold RunStep
  cases ht : s.self.thread_ with
  | none => simp [h]
  | some t =>
    obtain ⟨pc, j⟩ := t
    cases pc <;> by_cases hq : s.self.do_quit_ = true <;> simp [Sys.setPc, ht, h, hq]

theorem RunSteps_empty_slot (env : Env) (n : Nat) (s : Sys) (h : s.self.ready_ = none) :
    (RunSteps env n s).trace = s.trace ∧ (RunSteps env n s).self.ready_ = none := by
  induction n generalizing s with
  | zero => exact ⟨rfl, h⟩
  | succ k ih =>
    have h1 := RunStep_empty_slot env s h
    have h2 := ih (RunStep env s) h1.2
    exact ⟨by rw [RunSteps, h2.1, h1.1], by rw [RunSteps, h2.2]⟩

theorem RunStep_thread_isSome (env : Env) (s : Sys) (h : s.self.thread_.isSome = true) :
    (RunStep env s).self.thread_.isSome = true := by
  unfold RunStep
  cases ht : s.self.thread_ with
  | none => simp [ht] at h
  | some t =>
    obtain ⟨pc, j⟩ := t
    cases pc <;> by_cases hq : s.self.do_quit_ = true <;>
      cases hr : s.self.ready_ <;>
      simp [Sys.setPc, ProcessHistogramCache, ht, hq, hr]

/-- With the shutdown flag set the worker leaves `Run` within three steps,
wherever it stands. -/
theorem RunSteps_quit_exits (env : Env) (s : Sys) (t : Thread)
    (ht : s.self.thread_ = some t) (hq : s.self.do_quit_ = true) :
    ∃ t2, (RunSteps env 3 s).self.thread_ = some t2 ∧ t2.pc = WorkerPc.exited ∧
      t2.joinable = t.joinable := by
  obtain ⟨pc, j⟩ := t
  cases pc <;> cases hr : s.self.ready_ <;>
    simp [RunSteps, RunStep, Sys.setPc, ProcessHistogramCache, ht, hq, hr]

/-! ## Start and Stop -/

theorem Start_with_thread (s : Sys) (t : Thread) (ht : s.self.thread_ = some t) :
    Start s = s.emit (Effect.warn "Can't start an already running thread") := by
  unfold Start
  simp [ht]

theorem Stop_not_joinable (env : Env) (s : Sys) (t : Thread)
    (ht : s.self.thread_ = some t) (hj : t.joinable = false) :
    Stop env s = some (s.emit (Effect.warn "Can't stop a thread that's not started")) := by
  unfold Stop
  simp [ht, hj]

/-- A call of `Stop` on an object that has a thread returns, and leaves a
thread that is not joinable. -/
theorem Stop_returns (env : Env) (s : Sys) (t : Thread) (ht : s.self.thread_ = some t) :
    ∃ s' t', Stop env s = some s' ∧ s'.self.thread_ = some t' ∧ t'.joinable = false := by
  by_cases hj : t.joinable = false
  · exact ⟨_, t, Stop_not_joinable env s t ht hj, by simp [Sys.emit, ht], hj⟩
  · obtain ⟨t2, h2, hpc, _⟩ := RunSteps_quit_exits env
      { self := { s.self with do_quit_ := true }, trace := s.trace ++ [Effect.notify] } t ht rfl
    refine ⟨{ self := { (RunSteps env 3 { self := { s.self with do_quit_ := true },
                                          trace := s.trace ++ [Effect.notify] }).self with
                        thread_ := some { t2 with joinable := false } }
              trace := (RunSteps env 3 { self := { s.self with do_quit_ := true },
                                         trace := s.trace ++ [Effect.notify] }).trace ++
                [Effect.join] },
      { t2 with joinable := false }, ?_, rfl, rfl⟩
    unfold Stop
    simp only [ht] at h2 ⊢
    simp [hj, h2, hpc]

theorem perform_thread_isSome (env : Env) (a : Action) (s s' : Sys)
    (h : s.self.thread_.isSome = true) (ha : a.perform env s = some s') :
    s'.self.thread_.isSome = true := by
  cases a with
  | start =>
    simp only [Action.perform, Option.some.injEq] at ha
    subst ha
    unfold Start
    cases ht : s.self.thread_ <;> simp [Sys.emit, ht]
  | stop =>
    cases ht : s.self.thread_ with
    | none => simp [ht] at h
    | some t =>
      obtain ⟨s2, t', hs, ht', _⟩ := Stop_returns env s t ht
      simp only [Action.perform, hs, Option.some.injEq] at ha
      subst ha
      simp [ht']
  | submit p =>
    simp only [Action.perform, Option.some.injEq] at ha
    subst ha
    unfold Submit
    split <;> simp [h]
  | setParams fp =>
    simp only [Action.perform, Option.some.injEq] at ha
    subst ha
    simpa [SetCurrentFidelityParams] using h
  | workerStep =>
    simp only [Action.perform, Option.some.injEq] at ha
    subst ha
    exact RunStep_thread_isSome env s h

theorem performAll_thread_isSome (env : Env) (acts : List Action) (s s' : Sys)
    (h : s.self.thread_.isSome = true) (ha : performAll env acts s = some s') :
    s'.self.thread_.isSome = true := by
  induction acts generalizing s with
  | nil =>
    simp only [performAll, Option.some.injEq] at ha
    subst ha
    exact h
  | cons a rest ih =>
    simp only [performAll] at ha
    cases hp : a.perform env s with
    | none => simp [hp] at ha
    | some s1 =>
      simp only [hp] at ha
      exact ih s1 (perform_thread_isSome env a s s1 h hp) ha

theorem constructed_thread_isSome (env : Env) (backend : Option Nat) (q0 : Bool)
    (r0 : Option Nat) :
    (UploadThread.UploadThread env backend q0 r0).self.thread_.isSome = true := by
  simp [UploadThread.UploadThread, Start]

/-! ## After the worker has left `Run` -/

theorem workerExited_iff (s : Sys) :
    workerExited s = true ↔ ∃ t, s.self.thread_ = some t ∧ t.pc = WorkerPc.exited := by
  unfold workerExited
  cases ht : s.self.thread_ <;> simp

theorem Stop_after_exit (env : Env) (s : Sys) (h : workerExited s = true) :
    ∃ s', Stop env s = some s' ∧ workerExited s' = true ∧
      processCalls s'.trace = processCalls s.trace ∧ s'.self.ready_ = s.self.ready_ := by
  obtain ⟨t, ht, hpc⟩ := (workerExited_iff s).1 h
  by_cases hj : t.joinable = false
  · refine ⟨_, Stop_not_joinable env s t ht hj, ?_, ?_, ?_⟩
    · simpa [Sys.emit] using h
    · simp [Sys.emit, processCalls_append, processCalls]
    · simp [Sys.emit]
  · have hrun := RunSteps_exited env 3
      { self := { s.self with do_quit_ := true }, trace := s.trace ++ [Effect.notify] } t ht hpc
    refine ⟨{ self := { s.self with do_quit_ := true
                                    thread_ := some { t with joinable := false } }
              trace := s.trace ++ [Effect.notify] ++ [Effect.join] }, ?_, ?_, ?_, rfl⟩
    · unfold Stop
      simp only [ht] at hrun ⊢
      simp [hj, hrun, hpc]
    · simp [workerExited, hpc]
    · simp [processCalls_append, processCalls]

theorem perform_after_exit (env : Env) (a : Action) (s s' : Sys)
    (h : workerExited s = true) (ha : a.perform env s = some s') :
    workerExited s' = true ∧ processCalls s'.trace = processCalls s.trace ∧
      ∀ p : Nat, s.self.ready_ = some p → s'.self.ready_ = some p := by
  obtain ⟨t, ht, hpc⟩ := (workerExited_iff s).1 h
  cases a with
  | start =>
    simp only [Action.perform, Option.some.injEq] at ha
    subst ha
    rw [Start_with_thread s t ht]
    refine ⟨by simpa [Sys.emit] using h, ?_, fun p hp => by simpa [Sys.emit] using hp⟩
    simp [Sys.emit, processCalls_append, processCalls]
  | stop =>
    obtain ⟨s2, hs, he, hc, hr⟩ := Stop_after_exit env s h
    simp only [Action.perform, hs, Option.some.injEq] at ha
    subst ha
    exact ⟨he, hc, fun p hp => by rw [hr, hp]⟩
  | submit q =>
    simp only [Action.perform, Option.some.injEq] at ha
    subst ha
    unfold Submit
    by_cases hn : s.self.ready_ = none
    · rw [if_pos hn]
      refine ⟨by simpa [workerExited] using h, ?_, fun p hp => by simp [hn] at hp⟩
      simp [processCalls_append, processCalls]
    · rw [if_neg hn]
      exact ⟨h, rfl, fun p hp => hp⟩
  | setParams fp =>
    simp only [Action.perform, Option.some.injEq] at ha
    subst ha
    exact ⟨by simpa [SetCurrentFidelityParams, workerExited] using h, rfl,
      fun p hp => by simpa [SetCurrentFidelityParams] using hp⟩
  | workerStep =>
    simp only [Action.perform, Option.some.injEq] at ha
    subst ha
    rw [RunStep_exited env s t ht hpc]
    exact ⟨h, rfl, fun p hp => hp⟩

theorem performAll_after_exit (env : Env) (acts : List Action) (s s' : Sys)
    (h : workerExited s = true) (ha : performAll env acts s = some s') :
    workerExited s' = true ∧ processCalls s'.trace = processCalls s.trace ∧
      ∀ p : Nat, s.self.ready_ = some p → s'.self.ready_ = some p := by
  induction acts generalizing s with
  | nil =>
    simp only [performAll, Option.some.injEq] at ha
    subst ha
    exact ⟨h, rfl, fun p hp => hp⟩
  | cons a rest ih =>
    simp only [performAll] at ha
    cases hp : a.perform env s with
    | none => simp [hp] at ha
    | some s1 =>
      simp only [hp] at ha
      obtain ⟨h1, c1, r1⟩ := perform_after_exit env a s s1 h hp
      obtain ⟨h2, c2, r2⟩ := ih s1 h1 ha
      exact ⟨h2, by rw [c2, c1], fun p hp => r2 p (r1 p hp)⟩

/-! ## The claims on the lifecycle and the worker -/

/-- C5: `Start` on a running scheduler and `Stop` on a stopped one change no
member of the object (slot, shutdown flag, worker handle, configuration,
backend) and add one warning line to the trace, so no second worker is
spawned, a pending submission stays, and no second join is made; and in every
state the constructor and the calls after it can reach, the scheduler is
stopped exactly when it is not running. -/
theorem misuse_calls_are_noops (env : Env) (s : Sys) :
    (Running s = true →
      (Start s).self = s.self ∧
      (Start s).trace = s.trace ++ [Effect.warn "Can't start an already running thread"]) ∧
    (Stopped s = true →
      ∃ s', Stop env s = some s' ∧ s'.self = s.self ∧
        s'.trace = s.trace ++ [Effect.warn "Can't stop a thread that's not started"]) ∧
    (∀ (backend : Option Nat) (q0 : Bool) (r0 : Option Nat) (acts : List Action),
      performAll env acts (UploadThread.UploadThread env backend q0 r0) = some s →
        Stopped s = !Running s) := by
  refine ⟨?_, ?_, ?_⟩
  · intro hr
    cases ht : s.self.thread_ with
    | none => simp [Running, ht] at hr
    | some t => rw [Start_with_thread s t ht]; exact ⟨rfl, rfl⟩
  · intro hs
    cases ht : s.self.thread_ with
    | none => simp [Stopped, ht] at hs
    | some t =>
      have hj : t.joinable = false := by simpa [Stopped, ht] using hs
      exact ⟨_, Stop_not_joinable env s t ht hj, rfl, rfl⟩
  · intro backend q0 r0 acts hreach
    have h := performAll_thread_isSome env acts _ s
      (constructed_thread_isSome env backend q0 r0) hreach
    cases ht : s.self.thread_ with
    | none => simp [ht] at h
    | some t => simp [Stopped, Running, ht]

/-- C5 at concrete states: a second `Start` with address 3 pending, and a
second `Stop` in the state the constructor and one `Stop` lead to. -/
theorem misuse_calls_are_noops_witness :
    ((Start (sampleSys (some 3))).self = (sampleSys (some 3)).self ∧
      (Start (sampleSys (some 3))).trace =
        (sampleSys (some 3)).trace ++ [Effect.warn "Can't start an already running thread"]) ∧
    (∃ s', Stop sampleEnv stoppedSys = some s' ∧ s'.self = stoppedSys.self ∧
      s'.trace = stoppedSys.trace ++ [Effect.warn "Can't stop a thread that's not started"]) ∧
    Stopped stoppedSys = !Running stoppedSys :=
  ⟨(misuse_calls_are_noops sampleEnv (sampleSys (some 3))).1 (by decide),
   (misuse_calls_are_noops sampleEnv stoppedSys).2.1 (by decide),
   (misuse_calls_are_noops sampleEnv stoppedSys).2.2 none false none [Action.stop]
     (by decide)⟩

/-- C6: what the code does after a completed `Stop`.  For every backend
argument the constructor followed by `Stop` returns with the worker joined;
`Start` called then changes no member, spawns nothing and logs
"Can't start an already running thread"; the scheduler is still not running,
and a submission made afterwards is accepted into the slot but no number of
worker steps produces a `Process` call for it. -/
theorem Start_after_Stop_spawns_no_worker (env : Env) (backend : Option Nat)
    (q0 : Bool) (r0 : Option Nat) :
    ∃ s', Stop env (UploadThread.UploadThread env backend q0 r0) = some s' ∧
      Running s' = false ∧
      (Start s').self = s'.self ∧
      (Start s').trace = [Effect.spawn, Effect.notify, Effect.join,
        Effect.warn "Can't start an already running thread"] ∧
      Running (Start s') = false ∧
      (Start s').self.do_quit_ = true ∧
      ∀ (p n : Nat),
        (Submit (some p) (Start s')).1 = true ∧
        (RunSteps env n (Submit (some p) (Start s')).2).self.ready_ = some p ∧
        processCalls (RunSteps env n (Submit (some p) (Start s')).2).trace = [] := by
  refine ⟨{ self := { thread_ := some { pc := WorkerPc.exited, joinable := false }
                      do_quit_ := true
                      ready_ := none
                      backend_ := (UploadThread.UploadThread env backend q0 r0).self.backend_
                      current_fidelity_params_ := [] }
            trace := [Effect.spawn, Effect.notify, Effect.join] },
    ?_, rfl, rfl, rfl, rfl, rfl, ?_⟩
  · simp [UploadThread.UploadThread, Start, Stop, RunSteps, RunStep, Sys.setPc]
  · intro p n
    rw [RunSteps_exited env n _ { pc := WorkerPc.exited, joinable := false } rfl rfl]
    exact ⟨rfl, rfl, rfl⟩

/-- The bound of three steps is reached: with the worker already inside
`cv_.wait_for` when address 9 is submitted, two further steps make no
`Process` call and the third makes it. -/
theorem constructed_then_waiting_drains_at_third_step :
    processCalls (RunSteps sampleEnv 2 (Submit (some 9)
      (RunSteps sampleEnv 2 (UploadThread.UploadThread sampleEnv none false none))).2).trace =
      [] ∧
    processCalls (RunSteps sampleEnv 3 (Submit (some 9)
      (RunSteps sampleEnv 2 (UploadThread.UploadThread sampleEnv none false none))).2).trace =
      [(0, [9])] := by
  decide

/-- C8: a worker that finds the shutdown flag set at its loop test leaves `Run`
in that step without a drain cycle: the trace and the slot are as before;
every later worker step changes nothing, and whatever calls and worker steps
follow, no `Process` call is added and a reference pending in the slot at that
moment stays there undelivered. -/
theorem no_flush_on_stop (env : Env) (s : Sys) (t : Thread)
    (ht : s.self.thread_ = some t) (hpc : t.pc = WorkerPc.loopTest)
    (hq : s.self.do_quit_ = true) :
    (RunStep env s).self.thread_ = some { t with pc := WorkerPc.exited } ∧
    (RunStep env s).trace = s.trace ∧
    (RunStep env s).self.ready_ = s.self.ready_ ∧
    (∀ n : Nat, RunSteps env n (RunStep env s) = RunStep env s) ∧
    ∀ (acts : List Action) (s' : Sys), performAll env acts (RunStep env s) = some s' →
      processCalls s'.trace = processCalls s.trace ∧
      ∀ p : Nat, s.self.ready_ = some p → s'.self.ready_ = some p := by
  have hstep : RunStep env s =
      { s with self := { s.self with thread_ := some { t with pc := WorkerPc.exited } } } := by
    unfold RunStep
    simp [ht, hpc, hq, Sys.setPc]
  have hex : workerExited (RunStep env s) = true := by
    rw [hstep]; simp [workerExited]
  refine ⟨by rw [hstep], by rw [hstep], by rw [hstep], ?_, ?_⟩
  · intro n
    exact RunSteps_exited env n _ { t with pc := WorkerPc.exited } (by rw [hstep]) rfl
  · intro acts s' hs'
    obtain ⟨_, hc, hr⟩ := performAll_after_exit env acts _ s' hex hs'
    rw [hstep] at hc hr
    exact ⟨hc, hr⟩

/-- C8 at a concrete state: the worker stands at its loop test with the flag
set and address 3 pending; after it leaves, a `Start`, a rejected `Submit`, a
`Stop` and more worker steps bring no `Process` call and address 3 stays. -/
theorem no_flush_on_stop_witness :
    performAll sampleEnv quitActions (RunStep sampleEnv quittingSys) = some afterQuitSys ∧
    processCalls afterQuitSys.trace = [] ∧
    afterQuitSys.self.ready_ = some 3 :=
  ⟨by decide,
   ((no_flush_on_stop sampleEnv quittingSys { pc := WorkerPc.loopTest, joinable := true }
      rfl rfl rfl).2.2.2.2 quitActions afterQuitSys (by decide)).1,
   ((no_flush_on_stop sampleEnv quittingSys { pc := WorkerPc.loopTest, joinable := true }
      rfl rfl rfl).2.2.2.2 quitActions afterQuitSys (by decide)).2 3 rfl⟩

/-- The steps of one `Submit` call taken with no other thread in between, the
mutex being free, amount to `Submit`. -/
theorem SubmitStep_alone (s : Sys) (p : Option Nat) (h : mutexHeldByWorker s = false) :
    let c1 := SubmitStep { prongs := p, pc := SubmitPc.test } s
    let c2 := SubmitStep c1.1 c1.2
    let c3 := SubmitStep c2.1 c2.2
    c3 = ({ prongs := p, pc := SubmitPc.returned (Submit p s).1 }, (Submit p s).2) := by
  have h' : mutexHeldByWorker { self := s.self, trace := s.trace } = false := h
  by_cases hn : s.self.ready_ = none <;>
    simp [SubmitStep, Submit, hn, h, h', Sys.emit]

/-- C9: two `Submit` calls racing on an empty slot.  Under the schedule in
which both producers pass the test `ready_ == nullptr` before either assigns,
both calls return true; the slot ends holding the second reference, and the
worker iteration that follows delivers the cache at address 2 only: the
submission of address 1, reported as accepted, is lost. -/
theorem racing_Submits_both_return_true :
    (Conc.run sampleEnv [some 0, some 1, some 0, some 1, some 0, some 1] raceStart).callers =
      [{ prongs := some 1, pc := SubmitPc.returned true },
       { prongs := some 2, pc := SubmitPc.returned true }] ∧
    (Conc.run sampleEnv [some 0, some 1, some 0, some 1, some 0, some 1]
      raceStart).sys.self.ready_ = some 2 ∧
    processCalls (Conc.run sampleEnv
      [some 0, some 1, some 0, some 1, some 0, some 1, none, none, none, none, none, none]
      raceStart).sys.trace = [(4, [7, 2])] := by
  decide

/-- C10: with the slot empty, `Submit(nullptr)` returns true, leaves every
member as it was (the slot still empty) and adds only a wake-up to the trace;
a `Submit` right after it returns true as well, and no number of worker steps
makes a `Process` call for the null submission. -/
theorem Submit_null_is_accepted_without_effect (env : Env) (s : Sys)
    (h : s.self.ready_ = none) :
    (Submit none s).1 = true ∧
    (Submit none s).2.self = s.self ∧
    (Submit none s).2.trace = s.trace ++ [Effect.notify] ∧
    (∀ q : Option Nat, (Submit q (Submit none s).2).1 = true) ∧
    ∀ n : Nat,
      processCalls (RunSteps env n (Submit none s).2).trace = processCalls s.trace ∧
      (RunSteps env n (Submit none s).2).self.ready_ = none := by
  have hs : Submit none s =
      (true, { self := s.self, trace := s.trace ++ [Effect.notify] }) := by
    unfold Submit
    rw [if_pos h]
    cases s with
    | mk self trace =>
      cases self
      simp at h
      simp [h]
  rw [hs]
  refine ⟨rfl, rfl, rfl, ?_, ?_⟩
  · intro q
    simp [Submit, h]
  · intro n
    obtain ⟨h1, h2⟩ := RunSteps_empty_slot env n
      { self := s.self, trace := s.trace ++ [Effect.notify] } h
    exact ⟨by simp [h1, processCalls_append, processCalls], h2⟩

/-- C10 at a concrete state: a null submission to the empty slot of a running
scheduler, followed by a full worker iteration. -/
theorem Submit_null_is_accepted_without_effect_witness :
    (Submit none (sampleSys none)).1 = true ∧
    (Submit none (sampleSys none)).2.self = (sampleSys none).self ∧
    (Submit (some 5) (Submit none (sampleSys none)).2).1 = true ∧
    processCalls (RunSteps sampleEnv 3 (Submit none (sampleSys none)).2).trace = [] :=
  ⟨(Submit_null_is_accepted_without_effect sampleEnv (sampleSys none) rfl).1,
   (Submit_null_is_accepted_without_effect sampleEnv (sampleSys none) rfl).2.1,
   (Submit_null_is_accepted_without_effect sampleEnv (sampleSys none) rfl).2.2.2.1 (some 5),
   ((Submit_null_is_accepted_without_effect sampleEnv (sampleSys none) rfl).2.2.2.2 3).1⟩

end tuningfork
